import Mathlib

/-!
# Verification of the credential lifecycle & template export engine

Shallow embedding of the core logic of the prompts-lab backend:
the OAuth state codec and callback handler (`src/routes/notion.ts`),
the template export handler and its placeholder interpolation
(`src/routes/templates.ts`), the integrations repository upsert
(`IntegrationsRepository.upsertNotionToken`), the templates repository
usage counter (`TemplatesRepository.incrementUsageCount`), and an
idealized model of the token cipher described in the design document
(the concrete cipher is a third-party library, outside this repository).

JavaScript strings are modelled as Lean `String` / `List Char`;
`undefined`-able values as `Option`; each request handler as a pure
function from its inputs and the outcomes of its awaited calls
(supplied as an explicit environment) to a response value, together
with a trace of the external calls it performed.
-/

/-! ## OAuth state codec  (src/routes/notion.ts lines 24-28 and 104-112)

`issue`: the start handler draws a random nonce (64 hex characters) and
builds `` `${state}:${req.user.id}` ``.
`parse`: the callback handler runs `(state as string)?.split(':') || []`,
destructures the first two elements as `[stateToken, userId]`, and
rejects when `!userId`. -/

/-- JavaScript `s.split(':')` on the character list of `s`:
splits on every colon; `"".split(':')` is `[""]`. -/
def splitOnColon : List Char → List (List Char)
  | [] => [[]]
  | c :: rest =>
    if c = ':' then [] :: splitOnColon rest
    else
      match splitOnColon rest with
      | [] => [[c]]
      | h :: t => (c :: h) :: t

/-- State issuance (notion.ts line 28): `` `${nonce}:${userId}` ``.
The nonce is `CryptoJS.lib.WordArray.random(32).toString()`, 64 hex
characters; it is passed here explicitly as the randomness. -/
def issueState (nonce userId : String) : String :=
  nonce ++ ":" ++ userId

/-- State parsing (notion.ts lines 107-112): the second element of
`state?.split(':') || []`, rejected when absent or empty (`!userId`).
`none` models the `invalid_state` rejection. -/
def parseStateUserId (state : Option String) : Option String :=
  let parts : List (List Char) :=
    match state with
    | none => []
    | some s => splitOnColon s.data
  match parts.get? 1 with
  | none => none
  | some u => if u = [] then none else some (String.mk u)

theorem splitOnColon_ne_nil (l : List Char) : splitOnColon l ≠ [] := by
  induction l with
  | nil => simp [splitOnColon]
  | cons c rest ih =>
    simp only [splitOnColon]
    split
    · simp
    · match h : splitOnColon rest with
      | [] => simp
      | a :: t => simp

theorem splitOnColon_no_colon (l : List Char) (h : ':' ∉ l) :
    splitOnColon l = [l] := by
  induction l with
  | nil => rfl
  | cons c rest ih =>
    have hc : ¬(c = ':') := by
      intro hc; exact h (hc ▸ List.mem_cons_self c rest)
    have hrest : ':' ∉ rest := fun hm => h (List.mem_cons_of_mem c hm)
    simp only [splitOnColon, if_neg hc, ih hrest]

theorem splitOnColon_append (p rest : List Char) (h : ':' ∉ p) :
    splitOnColon (p ++ ':' :: rest) = p :: splitOnColon rest := by
  induction p with
  | nil =>
    simp [splitOnColon]
  | cons c q ih =>
    have hc : ¬(c = ':') := by
      intro hc; exact h (hc ▸ List.mem_cons_self c q)
    have hq : ':' ∉ q := fun hm => h (List.mem_cons_of_mem c hm)
    simp only [List.cons_append, splitOnColon, if_neg hc]
    rw [show q.append (':' :: rest) = q ++ ':' :: rest from rfl, ih hq]

/-- A concrete 64-hex-character nonce, one possible value of
`CryptoJS.lib.WordArray.random(32).toString()`. -/
def sampleNonce : String :=
  "0a1b2c3d4e5f60718293a4b5c6d7e8f90a1b2c3d4e5f60718293a4b5c6d7e8f9"

/-- C3 (amended): for every nonce and every non-empty `userId` neither of
which contains the `':'` delimiter, parsing the issued state recovers
exactly that `userId`; and parsing `""`, `":"` and `"onlynonce"` all fail. -/
theorem stateCodec_roundtrip_amended :
    (∀ nonce userId : String, ':' ∉ nonce.data → ':' ∉ userId.data →
      userId ≠ "" →
      parseStateUserId (some (issueState nonce userId)) = some userId) ∧
    parseStateUserId (some "") = none ∧
    parseStateUserId (some ":") = none ∧
    parseStateUserId (some "onlynonce") = none := by
  refine ⟨?_, by decide, by decide, by decide⟩
  intro nonce userId hn hu hne
  obtain ⟨u⟩ := userId
  have hdata : (issueState nonce (String.mk u)).data = nonce.data ++ ':' :: u := by
    show (nonce ++ ":" ++ String.mk u).data = _
    rw [String.data_append, String.data_append, List.append_assoc]
    rfl
  have hu' : ':' ∉ u := hu
  have hune : u ≠ [] := by
    intro h
    subst h
    exact hne rfl
  simp only [parseStateUserId, hdata, splitOnColon_append _ _ hn,
    splitOnColon_no_colon _ hu']
  simp [hune]

/-- Witness for `stateCodec_roundtrip_amended` at concrete inputs. -/
theorem stateCodec_roundtrip_amended_witness :
    parseStateUserId (some (issueState sampleNonce "user-42")) = some "user-42" :=
  stateCodec_roundtrip_amended.1 sampleNonce "user-42"
    (by decide) (by decide) (by decide)

/-- C3 counterexample: for the non-empty user identifier `"a:b"`, parsing
the issued state does not recover `"a:b"`: the parser takes the segment
between the first two delimiters, yielding `"a"`. -/
theorem stateCodec_roundtrip_cex :
    parseStateUserId (some (issueState sampleNonce "a:b")) = some "a" ∧
    parseStateUserId (some (issueState sampleNonce "a:b")) ≠ some "a:b" := by
  constructor
  · decide
  · decide

/-! ## Template interpolation  (src/routes/templates.ts lines 498-503)

The export handler runs, for each entry of `exportData.variables` in
object insertion order:
`interpolatedContent = interpolatedContent.replace(new RegExp('{{' + key + '}}', 'g'), value)`.

The pattern string is NOT regex-escaped.  We embed the JavaScript
regular-expression semantics for the fragment actually reachable from
such placeholder patterns whose key characters are either ordinary
characters or the `.` metacharacter: a brace that does not open a valid
quantifier is a literal (Annex B), an ordinary character matches itself,
and `.` matches any character except a line terminator.  Replacement
values are inserted verbatim, which matches JavaScript for values that
contain no `$` character. -/

/-- One compiled pattern token of the embedded regex fragment. -/
inductive RTok where
  | lit (c : Char)
  | dot
deriving DecidableEq

/-- The opening-brace character (code point 123). -/
def lbrace : Char := Char.ofNat 123

/-- The closing-brace character (code point 125). -/
def rbrace : Char := Char.ofNat 125

/-- `new RegExp(pat)` for the supported fragment: `.` compiles to the
any-character-but-line-terminator token, everything else to a literal. -/
def compileRegex (pat : List Char) : List RTok :=
  pat.map (fun c => if c = '.' then RTok.dot else RTok.lit c)

/-- A pattern made only of literal tokens: exact-substring matching. -/
def compileLiteral (pat : List Char) : List RTok :=
  pat.map RTok.lit

/-- Whether one token matches one character (JavaScript `.` excludes the
four line terminators U+000A, U+000D, U+2028, U+2029). -/
def tokMatches : RTok → Char → Bool
  | RTok.lit a, c => a = c
  | RTok.dot, c =>
    !(c = Char.ofNat 10 || c = Char.ofNat 13 ||
      c = Char.ofNat 0x2028 || c = Char.ofNat 0x2029)

/-- Whether the token sequence matches a prefix of the subject. -/
def matchesFront : List RTok → List Char → Bool
  | [], _ => true
  | _ :: _, [] => false
  | t :: ts, c :: cs => tokMatches t c && matchesFront ts cs

/-- `subject.replace(regex, repl)` with the `g` flag: scan left to right,
replace each (non-overlapping) match, resume after the match.  Structural
recursion on a fuel counter so the kernel can evaluate it; the fuel is
instantiated with the subject length, which suffices because every step
consumes at least one subject character (placeholder patterns are
non-empty). -/
def replaceAllFuel (pat : List RTok) (repl : List Char) :
    Nat → List Char → List Char
  | _, [] => []
  | 0, subject => subject
  | Nat.succ fuel, c :: rest =>
    if pat ≠ [] ∧ matchesFront pat (c :: rest) = true then
      repl ++ replaceAllFuel pat repl fuel ((c :: rest).drop pat.length)
    else
      c :: replaceAllFuel pat repl fuel rest

/-- `subject.replace(new RegExp(pat, 'g'), repl)`. -/
def jsReplaceAll (pat repl subject : List Char) : List Char :=
  replaceAllFuel (compileRegex pat) repl subject.length subject

/-- The placeholder string `{{key}}` built by the handler. -/
def placeholder (key : String) : List Char :=
  lbrace :: lbrace :: key.data ++ [rbrace, rbrace]

/-- A convenience literal for bodies containing a placeholder. -/
def ph (key : String) : String :=
  String.mk (placeholder key)

/-- The interpolation loop of the export handler: fold the variables map
(in object insertion order) over the evolving body. -/
def jsInterpolate (body : String) (vars : List (String × String)) : String :=
  String.mk (vars.foldl
    (fun acc kv => jsReplaceAll (placeholder kv.1) kv.2.data acc)
    body.data)

/-- Literal exact-substring replacement of every occurrence, the
behaviour the specification describes for one key. -/
def literalReplaceAll (pat repl subject : List Char) : List Char :=
  replaceAllFuel (compileLiteral pat) repl subject.length subject

/-- Interpolation as the specification words it: for each supplied key,
replace every occurrence of the exact literal substring `{{key}}`. -/
def literalInterpolate (body : String) (vars : List (String × String)) : String :=
  String.mk (vars.foldl
    (fun acc kv => literalReplaceAll (placeholder kv.1) kv.2.data acc)
    body.data)

/-- C1 (divergence of the code from literal substitution): for the body
`"{{axb}}"` and the single variable entry `("a.b", "V")`, the unescaped
pattern `{{a.b}}` is compiled as a regular expression whose `.` matches
any character, so the handler rewrites the body to `"V"`, while literal
exact-substring substitution leaves the body unchanged because the
substring `{{a.b}}` never occurs in it. -/
theorem interpolation_regex_injection_cex :
    jsInterpolate (ph "axb") [("a.b", "V")] = "V" ∧
    literalInterpolate (ph "axb") [("a.b", "V")] = ph "axb" ∧
    ph "axb" ≠ "V" := by
  refine ⟨by decide, by decide, by decide⟩

/-- C10: the interpolation loop applies the supplied entries one at a
time over the evolving body (first conjunct, the loop invariant of the
`for` loop); consequently a placeholder inserted by an earlier value is
itself replaced when its key comes later in the enumeration order, and
swapping the enumeration order changes the result (remaining conjuncts,
at the body `"{{a}}"` with values `a ↦ "{{b}}"`, `b ↦ "X"`). -/
theorem interpolation_sequential_evolving_body :
    (∀ (body : String) (k v : String) (rest : List (String × String)),
      jsInterpolate body ((k, v) :: rest) =
        jsInterpolate
          (String.mk (jsReplaceAll (placeholder k) v.data body.data)) rest) ∧
    jsInterpolate (ph "a") [("a", ph "b"), ("b", "X")] = "X" ∧
    jsInterpolate (ph "a") [("b", "X"), ("a", ph "b")] = ph "b" := by
  refine ⟨fun body k v rest => rfl, by decide, by decide⟩

/-! ## Credential cipher  (spec §4.1; notion.ts lines 173-175, templates.ts 482-487)

Modelled from the spec: the cipher itself is `CryptoJS.AES` — third-party
library code, not part of this repository — so it is modelled from the
design document's words: a symmetric scheme under a single process-wide
key validated as 64 hex characters, which "prepends salt material to each
encryption so ciphertexts are non-deterministic across calls", and is
"format-self-describing … so that a tampered or wrong-key ciphertext
decrypts to a detectable failure rather than garbage".  The model is an
idealized such scheme: the ciphertext is a self-describing sequence of
length-prefixed blocks (salt, key-binding tag, shifted payload); the tag
plays the role of the key check an authenticated scheme provides. -/

/-- Character codes of a string. -/
def byteCodes (s : String) : List Nat :=
  s.data.map Char.toNat

/-- A length-prefixed block of the serialized ciphertext. -/
def cipherBlock (l : List Nat) : List Nat :=
  l.length :: l

/-- Read one length-prefixed block; fails on truncated input. -/
def readBlock (l : List Nat) : Option (List Nat × List Nat) :=
  match l with
  | [] => none
  | n :: rest => if n ≤ rest.length then some (rest.take n, rest.drop n) else none

/-- The keystream shift derived from key and salt. -/
def cipherPad (keyCodes saltCodes : List Nat) : Nat :=
  (keyCodes ++ saltCodes).sum

/-- Modelled from the spec (§4.1): encryption under `key` with the fresh
random `salt` of this call.  Emits salt block, key-binding tag block and
shifted payload block. -/
def CredentialCipher.encrypt (key salt plaintext : String) : List Nat :=
  cipherBlock (byteCodes salt) ++
    (cipherBlock (byteCodes key ++ byteCodes salt) ++
      cipherBlock (plaintext.data.map
        (fun c => c.toNat + cipherPad (byteCodes key) (byteCodes salt))))

/-- Modelled from the spec (§4.1): decryption; `none` is the explicit
`DecryptionFailure` result. -/
def CredentialCipher.decrypt (key : String) (ct : List Nat) : Option String :=
  match readBlock ct with
  | none => none
  | some (salt, r1) =>
    match readBlock r1 with
    | none => none
    | some (tag, r2) =>
      match readBlock r2 with
      | none => none
      | some (body, r3) =>
        if r3 = [] ∧ tag = byteCodes key ++ salt then
          some (String.mk (body.map
            (fun n => Char.ofNat (n - cipherPad (byteCodes key) salt))))
        else none

/-- The environment validation of the encryption key
(src/lib/env.ts line 25): exactly 64 hex characters. -/
def isHex64Key (s : String) : Bool :=
  (s.data.length == 64) &&
    s.data.all (fun c =>
      c.isDigit || ('a' ≤ c && c ≤ 'f') || ('A' ≤ c && c ≤ 'F'))

theorem readBlock_cipherBlock_append (A rest : List Nat) :
    readBlock (cipherBlock A ++ rest) = some (A, rest) := by
  simp [readBlock, cipherBlock, List.take_left, List.drop_left]

theorem readBlock_cipherBlock (A : List Nat) :
    readBlock (cipherBlock A) = some (A, []) := by
  have h := readBlock_cipherBlock_append A []
  rwa [List.append_nil] at h

theorem char_toNat_injective : Function.Injective Char.toNat :=
  fun _ _ h => Char.eq_of_val_eq (UInt32.ext h)

theorem byteCodes_injective (s₁ s₂ : String) (h : byteCodes s₁ = byteCodes s₂) :
    s₁ = s₂ := by
  obtain ⟨l₁⟩ := s₁
  obtain ⟨l₂⟩ := s₂
  exact congrArg String.mk (List.map_injective_iff.mpr char_toNat_injective h)

/-- C2: under any valid 64-hex-character key, decryption inverts
encryption for every plaintext; and two encryptions of the same
plaintext under distinct fresh salts yield distinct ciphertexts. -/
theorem cipher_roundtrip_and_salted :
    (∀ key salt t : String, isHex64Key key = true →
      CredentialCipher.decrypt key (CredentialCipher.encrypt key salt t) = some t) ∧
    (∀ key s₁ s₂ t : String, s₁ ≠ s₂ →
      CredentialCipher.encrypt key s₁ t ≠ CredentialCipher.encrypt key s₂ t) := by
  constructor
  · intro key salt t _hkey
    unfold CredentialCipher.encrypt CredentialCipher.decrypt
    simp only [readBlock_cipherBlock_append, readBlock_cipherBlock]
    rw [if_pos ⟨trivial, trivial⟩, List.map_map]
    have hfun :
        ((fun n => Char.ofNat (n - cipherPad (byteCodes key) (byteCodes salt))) ∘
          (fun c => c.toNat + cipherPad (byteCodes key) (byteCodes salt))) = id := by
      funext c
      simp [Function.comp, Nat.add_sub_cancel, Char.ofNat_toNat]
    rw [hfun, List.map_id]
  · intro key s₁ s₂ t hne heq
    have h := congrArg readBlock heq
    simp only [CredentialCipher.encrypt, readBlock_cipherBlock_append,
      Option.some.injEq, Prod.mk.injEq] at h
    exact hne (byteCodes_injective _ _ h.1)

/-- Witness for `cipher_roundtrip_and_salted`: a concrete valid key,
two concrete salts and a concrete token. -/
theorem cipher_roundtrip_and_salted_witness :
    CredentialCipher.decrypt sampleNonce
      (CredentialCipher.encrypt sampleNonce "ab" "secret-token") =
        some "secret-token" ∧
    CredentialCipher.encrypt sampleNonce "ab" "secret-token" ≠
      CredentialCipher.encrypt sampleNonce "cd" "secret-token" :=
  ⟨cipher_roundtrip_and_salted.1 sampleNonce "ab" "secret-token" (by decide),
   cipher_roundtrip_and_salted.2 sampleNonce "ab" "cd" "secret-token" (by decide)⟩

theorem readBlock_cipherBlock_take (A rest : List Nat) (k : Nat) :
    readBlock ((cipherBlock A ++ rest).take k) =
      if A.length + 1 ≤ k then some (A, rest.take (k - 1 - A.length))
      else none := by
  cases k with
  | zero => simp [readBlock]
  | succ k =>
    show readBlock ((A.length :: (A ++ rest)).take (k + 1)) = _
    rw [List.take_succ_cons]
    by_cases h : A.length ≤ k
    · rw [List.take_append_eq_append_take, List.take_of_length_le h]
      have hcond : A.length ≤ (A ++ List.take (k - A.length) rest).length := by
        simp [List.length_append]
      simp only [readBlock, if_pos hcond, List.take_left, List.drop_left]
      rw [if_pos (by omega)]
      congr 1
    · rw [List.take_append_eq_append_take, Nat.sub_eq_zero_of_le (by omega),
        List.take_zero, List.append_nil]
      have hcond : ¬(A.length ≤ (A.take k).length) := by
        simp [List.length_take]
        omega
      simp only [readBlock, if_neg hcond]
      rw [if_neg (by omega)]

/-- C7: decrypting a ciphertext produced under a different key with the
process key yields the explicit failure `none`, and so does decrypting
any strict prefix (truncation) of a well-formed ciphertext; no branch
returns a plaintext-looking or empty-but-successful result. -/
theorem cipher_rejects_wrong_key_and_truncation :
    (∀ key₁ key₂ salt t : String, key₁ ≠ key₂ →
      CredentialCipher.decrypt key₁ (CredentialCipher.encrypt key₂ salt t) =
        none) ∧
    (∀ (key salt t : String) (k : Nat),
      k < (CredentialCipher.encrypt key salt t).length →
      CredentialCipher.decrypt key
        ((CredentialCipher.encrypt key salt t).take k) = none) := by
  constructor
  · intro key₁ key₂ salt t hne
    unfold CredentialCipher.encrypt CredentialCipher.decrypt
    simp only [readBlock_cipherBlock_append, readBlock_cipherBlock]
    rw [if_neg]
    intro hcond
    exact hne (byteCodes_injective _ _
      (List.append_cancel_right hcond.2)).symm
  · intro key salt t k hk
    have hlen : (CredentialCipher.encrypt key salt t).length =
        (byteCodes salt).length + (byteCodes key ++ byteCodes salt).length +
          t.data.length + 3 := by
      simp only [CredentialCipher.encrypt, cipherBlock, List.length_append,
        List.length_cons, List.length_map]
      omega
    rw [hlen] at hk
    unfold CredentialCipher.encrypt CredentialCipher.decrypt
    rw [readBlock_cipherBlock_take]
    by_cases h₁ : (byteCodes salt).length + 1 ≤ k
    · rw [if_pos h₁]
      simp only []
      rw [readBlock_cipherBlock_take]
      by_cases h₂ : (byteCodes key ++ byteCodes salt).length + 1 ≤
          k - 1 - (byteCodes salt).length
      · rw [if_pos h₂]
        simp only []
        rw [show cipherBlock (t.data.map
            (fun c => c.toNat + cipherPad (byteCodes key) (byteCodes salt))) =
            cipherBlock (t.data.map
              (fun c => c.toNat + cipherPad (byteCodes key) (byteCodes salt)))
              ++ [] from (List.append_nil _).symm]
        rw [readBlock_cipherBlock_take]
        rw [if_neg (by simp only [List.length_map]; omega)]
      · rw [if_neg h₂]
    · rw [if_neg h₁]

/-- A second concrete 64-hex-character key, distinct from `sampleNonce`. -/
def sampleOtherKey : String :=
  "ffffffffffffffffffffffffffffffffffffffffffffffffffffffffffffffff"

/-- Witness for `cipher_rejects_wrong_key_and_truncation` at concrete
keys, salt, plaintext and truncation point. -/
theorem cipher_rejects_wrong_key_and_truncation_witness :
    CredentialCipher.decrypt sampleNonce
      (CredentialCipher.encrypt sampleOtherKey "ab" "secret-token") = none ∧
    CredentialCipher.decrypt sampleNonce
      ((CredentialCipher.encrypt sampleNonce "ab" "secret-token").take 5) =
        none :=
  ⟨cipher_rejects_wrong_key_and_truncation.1 sampleNonce sampleOtherKey
      "ab" "secret-token" (by decide),
   cipher_rejects_wrong_key_and_truncation.2 sampleNonce "ab" "secret-token"
      5 (by decide)⟩

/-! ## Credential store upsert  (IntegrationsRepository.upsertNotionToken)

The repository (src/unnamed/part_001, lines 26-107) validates the input
with zod, looks up the single row for `(userId, 'notion')`, updates that
row in place when it exists (not touching `created_at`), and inserts a
fresh row otherwise.  The storage is modelled as a list of rows; the
`UNIQUE(user_id, provider)` constraint of the schema guards the insert.
Supabase's `.single()` yields the error code `PGRST116` on zero rows
(treated as "insert") and another error on several rows (early return).
Timestamps are `Nat`; the generated row id and the current time are
explicit parameters.  The zod datetime-format check on `expiresAt` and
storage-level I/O failures are not modelled; neither affects the rows
kept per `(user, provider)` pair. -/

structure UserIntegration where
  id : String
  user_id : String
  provider : String
  access_token : String
  refresh_token : Option String
  workspace_name : Option String
  workspace_id : Option String
  expires_at : Option String
  created_at : Nat
  updated_at : Nat
deriving DecidableEq

/-- The `UpsertNotionTokenInput` shape (part_001 lines 6-12). -/
structure UpsertInput where
  accessToken : String
  refreshToken : Option String
  workspaceName : Option String
  workspaceId : Option String
  expiresAt : Option String
deriving DecidableEq

/-- The zod checks of `UpsertNotionTokenSchema`: non-empty access token,
workspace fields at most 255 characters. -/
def validUpsertInput (d : UpsertInput) : Bool :=
  (d.accessToken ≠ "" : Bool) &&
    (match d.workspaceName with
     | none => true
     | some s => s.data.length ≤ 255) &&
    (match d.workspaceId with
     | none => true
     | some s => s.data.length ≤ 255)

/-- JavaScript `x || null`: an empty string is coerced to `null`. -/
def emptyToNone (o : Option String) : Option String :=
  match o with
  | some "" => none
  | x => x

/-- Row predicate for the `(userId, 'notion')` lookup. -/
def isNotionRowOf (userId : String) (r : UserIntegration) : Bool :=
  r.user_id = userId && r.provider = "notion"

/-- The field assignment performed by the update branch
(part_001 lines 49-63): everything but `id`, `user_id`, `provider` and
`created_at` is replaced; `updated_at` is refreshed. -/
def applyUpdate (d : UpsertInput) (now : Nat) (r : UserIntegration) :
    UserIntegration :=
  { r with
    access_token := d.accessToken
    refresh_token := emptyToNone d.refreshToken
    workspace_name := emptyToNone d.workspaceName
    workspace_id := emptyToNone d.workspaceId
    expires_at := emptyToNone d.expiresAt
    updated_at := now }

/-- The fresh row built by the insert branch (part_001 lines 74-88);
`created_at` and `updated_at` take the storage defaults `NOW()`. -/
def freshRow (userId : String) (d : UpsertInput) (freshId : String)
    (now : Nat) : UserIntegration :=
  { id := freshId
    user_id := userId
    provider := "notion"
    access_token := d.accessToken
    refresh_token := emptyToNone d.refreshToken
    workspace_name := emptyToNone d.workspaceName
    workspace_id := emptyToNone d.workspaceId
    expires_at := emptyToNone d.expiresAt
    created_at := now
    updated_at := now }

/-- `IntegrationsRepository.upsertNotionToken`: returns the new store
contents and the row reported back (`none` on any error return). -/
def upsertNotionToken (db : List UserIntegration) (userId : String)
    (d : UpsertInput) (freshId : String) (now : Nat) :
    List UserIntegration × Option UserIntegration :=
  if validUpsertInput d = false then (db, none)
  else
    match db.filter (isNotionRowOf userId) with
    | [r] =>
      let upd := fun row => if row.id = r.id then applyUpdate d now row else row
      (db.map upd, some (applyUpdate d now r))
    | [] =>
      if db.any (isNotionRowOf userId) then (db, none)
      else (db ++ [freshRow userId d freshId now], some (freshRow userId d freshId now))
    | _ => (db, none)

/-- The schema invariant `UNIQUE(user_id, provider)`: at most one row
per pair. -/
def CredInvariant (db : List UserIntegration) : Prop :=
  ∀ u p : String,
    (db.countP (fun r => r.user_id = u && r.provider = p)) ≤ 1

/-- C4: (1) starting from a store holding no row for `(u, 'notion')`
(and not already using the generated row id), two successive upserts for
user `u` leave exactly one row for the pair, carrying the second call's
field values, the first call's creation timestamp `t₁` and the second
call's update timestamp `t₂`; (2) every upsert preserves the at-most-one
row per `(user, provider)` invariant. -/
theorem upsert_once_per_pair :
    (∀ (db : List UserIntegration) (u : String) (d₁ d₂ : UpsertInput)
      (id₁ id₂ : String) (t₁ t₂ : Nat),
      validUpsertInput d₁ = true → validUpsertInput d₂ = true →
      db.filter (isNotionRowOf u) = [] →
      (∀ r ∈ db, r.id ≠ id₁) →
      ((upsertNotionToken
          (upsertNotionToken db u d₁ id₁ t₁).1 u d₂ id₂ t₂).1).filter
            (isNotionRowOf u) =
        [applyUpdate d₂ t₂ (freshRow u d₁ id₁ t₁)] ∧
      (applyUpdate d₂ t₂ (freshRow u d₁ id₁ t₁)).created_at = t₁ ∧
      (applyUpdate d₂ t₂ (freshRow u d₁ id₁ t₁)).updated_at = t₂ ∧
      (applyUpdate d₂ t₂ (freshRow u d₁ id₁ t₁)).access_token =
        d₂.accessToken) ∧
    (∀ (db : List UserIntegration) (u : String) (d : UpsertInput)
      (freshId : String) (now : Nat),
      CredInvariant db →
      CredInvariant (upsertNotionToken db u d freshId now).1) := by
  constructor
  · intro db u d₁ d₂ id₁ id₂ t₁ t₂ hv₁ hv₂ hfilter hid
    have hany : db.any (isNotionRowOf u) = false :=
      List.any_eq_false.mpr (List.filter_eq_nil_iff.mp hfilter)
    have hdb₁ : (upsertNotionToken db u d₁ id₁ t₁).1 =
        db ++ [freshRow u d₁ id₁ t₁] := by
      simp only [upsertNotionToken, hv₁, hfilter, hany]
      rfl
    have hfreshmatch : isNotionRowOf u (freshRow u d₁ id₁ t₁) = true := by
      simp [isNotionRowOf, freshRow]
    have hfilter₁ : (db ++ [freshRow u d₁ id₁ t₁]).filter (isNotionRowOf u) =
        [freshRow u d₁ id₁ t₁] := by
      rw [List.filter_append, hfilter]
      simp [hfreshmatch]
    have hdb₂ : (upsertNotionToken (db ++ [freshRow u d₁ id₁ t₁]) u d₂ id₂
        t₂).1 =
        db ++ [applyUpdate d₂ t₂ (freshRow u d₁ id₁ t₁)] := by
      simp only [upsertNotionToken, hv₂, hfilter₁]
      simp only [List.map_append]
      have hmapdb : db.map (fun row =>
          if row.id = (freshRow u d₁ id₁ t₁).id then applyUpdate d₂ t₂ row
          else row) = db := by
        have := List.map_congr_left (l := db)
          (f := fun row =>
            if row.id = (freshRow u d₁ id₁ t₁).id then applyUpdate d₂ t₂ row
            else row)
          (g := id)
          (fun r hr => by
            simp only [id]
            rw [if_neg]
            exact hid r hr)
        rw [this, List.map_id]
      rw [hmapdb]
      simp [freshRow]
    rw [hdb₁, hdb₂]
    refine ⟨?_, rfl, rfl, rfl⟩
    rw [List.filter_append, hfilter]
    have : isNotionRowOf u (applyUpdate d₂ t₂ (freshRow u d₁ id₁ t₁)) =
        true := by
      simp [isNotionRowOf, applyUpdate, freshRow]
    simp [this]
  · intro db u d freshId now hinv
    unfold upsertNotionToken
    by_cases hv : validUpsertInput d = false
    · rw [if_pos hv]
      exact hinv
    · rw [if_neg hv]
      match hfilter : db.filter (isNotionRowOf u) with
      | [r] =>
        simp only []
        intro u' p'
        rw [List.countP_map]
        have : List.countP
            ((fun r : UserIntegration => r.user_id = u' && r.provider = p') ∘
              (fun row => if row.id = r.id then applyUpdate d now row
                else row)) db =
            List.countP
              (fun r : UserIntegration => r.user_id = u' && r.provider = p')
              db := by
          apply List.countP_congr
          intro x _
          simp only [Function.comp]
          by_cases hx : x.id = r.id
          · simp [hx, applyUpdate]
          · simp [hx]
        rw [this]
        exact hinv u' p'
      | [] =>
        have hany : db.any (isNotionRowOf u) = false :=
          List.any_eq_false.mpr (List.filter_eq_nil_iff.mp hfilter)
        simp only [hany]
        simp only [Bool.false_eq_true, if_false]
        intro u' p'
        rw [List.countP_append]
        by_cases hm : (u' = u ∧ p' = "notion")
        · have hzero : List.countP
              (fun r : UserIntegration => r.user_id = u' && r.provider = p')
              db = 0 := by
            rw [List.countP_eq_zero]
            intro a ha hcon
            apply List.filter_eq_nil_iff.mp hfilter a ha
            simp only [isNotionRowOf, Bool.and_eq_true, decide_eq_true_eq]
              at hcon ⊢
            exact ⟨by rw [← hm.1]; exact hcon.1, by rw [← hm.2]; exact hcon.2⟩
          rw [hzero]
          have hle := List.countP_le_length
            (p := fun r : UserIntegration => r.user_id = u' && r.provider = p')
            (l := [freshRow u d freshId now])
          simpa using hle
        · have hnew : List.countP
              (fun r : UserIntegration => r.user_id = u' && r.provider = p')
              [freshRow u d freshId now] = 0 := by
            rw [List.countP_eq_zero]
            intro a ha
            simp only [List.mem_singleton] at ha
            subst ha
            simp only [freshRow, Bool.and_eq_true, decide_eq_true_eq]
            intro hcon
            exact hm ⟨hcon.1.symm ▸ rfl, hcon.2.symm ▸ rfl⟩
          rw [hnew]
          simpa using hinv u' p'
      | r₁ :: r₂ :: rest =>
        simp only []
        exact hinv

/-- A first concrete upsert payload. -/
def sampleInputA : UpsertInput :=
  { accessToken := "enc-token-1", refreshToken := some "enc-refresh-1"
    workspaceName := some "Workspace One", workspaceId := some "ws-1"
    expiresAt := none }

/-- A second concrete upsert payload with different field values. -/
def sampleInputB : UpsertInput :=
  { accessToken := "enc-token-2", refreshToken := none
    workspaceName := some "Workspace Two", workspaceId := none
    expiresAt := none }

/-- Witness for `upsert_once_per_pair` at concrete inputs: an empty
store, one user, two successive payloads. -/
theorem upsert_once_per_pair_witness :
    ((upsertNotionToken (upsertNotionToken [] "u1" sampleInputA "i1" 1).1
        "u1" sampleInputB "i2" 2).1).filter (isNotionRowOf "u1") =
      [applyUpdate sampleInputB 2 (freshRow "u1" sampleInputA "i1" 1)] ∧
    CredInvariant (upsertNotionToken [] "u1" sampleInputA "i1" 1).1 :=
  ⟨(upsert_once_per_pair.1 [] "u1" sampleInputA sampleInputB "i1" "i2" 1 2
      (by decide) (by decide) rfl (by simp)).1,
   upsert_once_per_pair.2 [] "u1" sampleInputA "i1" 1
      (fun u p => by simp)⟩

/-! ## Usage counter  (TemplatesRepository.incrementUsageCount, src/unnamed/part_000 lines 328-345)

The repository issues one UPDATE whose payload is
`{ usage_count: supabase.rpc('increment_usage_count') }`.
`supabase.rpc(...)` returns a client-side query-builder object — it is
not executed here, and no SQL function named `increment_usage_count`
exists anywhere in the schema (src/unnamed/part_008) — so the statement
sets `usage_count` to the serialized form of that builder object, a
value independent of the row's current count (or errors out, changing
nothing).  The serialized value is abstracted as the parameter
`payload`; crucially the written value does not depend on the row. -/

structure Template where
  id : String
  user_id : String
  title : String
  category : Option String
  tags : List String
  prompt : String
  is_public : Bool
  usage_count : Nat
deriving DecidableEq

/-- The UPDATE issued by `incrementUsageCount`, in the case the storage
accepts the payload: set `usage_count` of the matching rows to the
row-independent `payload` value. -/
def incrementUsageCountUpdate (payload : Nat) (db : List Template)
    (id : String) : List Template :=
  db.map (fun t => if t.id = id then { t with usage_count := payload } else t)

/-- C9 (divergence): the write performed by `incrementUsageCount` is
idempotent — applying it twice equals applying it once — and after one
call the stored count is the row-independent payload, not the previous
count plus one; therefore two sequential calls on a template starting at
count 0 cannot yield the counts 1 and then 2 that an increment would
produce. -/
theorem incrementUsageCount_not_an_increment :
    (∀ (payload : Nat) (db : List Template) (id : String),
      incrementUsageCountUpdate payload
          (incrementUsageCountUpdate payload db id) id =
        incrementUsageCountUpdate payload db id) ∧
    (∀ (payload : Nat) (t : Template),
      t.usage_count = 0 →
      ¬((((incrementUsageCountUpdate payload [t] t.id).head?).map
            Template.usage_count = some 1) ∧
        (((incrementUsageCountUpdate payload
            (incrementUsageCountUpdate payload [t] t.id) t.id).head?).map
              Template.usage_count = some 2))) := by
  constructor
  · intro payload db id
    unfold incrementUsageCountUpdate
    rw [List.map_map]
    apply List.map_congr_left
    intro t _
    by_cases h : t.id = id
    · simp [h]
    · simp [h]
  · intro payload t _h0 hcl
    have h₁ := hcl.1
    have h₂ := hcl.2
    simp [incrementUsageCountUpdate] at h₁ h₂
    omega

/-- A concrete stored template with usage count 0. -/
def sampleTemplate : Template :=
  { id := "t1", user_id := "owner-a", title := "Sample", category := none
    tags := [], prompt := "body", is_public := true, usage_count := 0 }

/-- Witness for `incrementUsageCount_not_an_increment` at a concrete
payload and template. -/
theorem incrementUsageCount_not_an_increment_witness :
    incrementUsageCountUpdate 7
        (incrementUsageCountUpdate 7 [sampleTemplate] sampleTemplate.id)
        sampleTemplate.id =
      incrementUsageCountUpdate 7 [sampleTemplate] sampleTemplate.id ∧
    ¬((((incrementUsageCountUpdate 7 [sampleTemplate]
            sampleTemplate.id).head?).map Template.usage_count = some 1) ∧
      (((incrementUsageCountUpdate 7
          (incrementUsageCountUpdate 7 [sampleTemplate] sampleTemplate.id)
          sampleTemplate.id).head?).map Template.usage_count = some 2)) :=
  ⟨incrementUsageCount_not_an_increment.1 7 [sampleTemplate] sampleTemplate.id,
   incrementUsageCount_not_an_increment.2 7 sampleTemplate rfl⟩

/-! ## Template export handler  (src/routes/templates.ts lines 433-621)

The handler runs, in order: template lookup, the authorization check
`(!is_public && user_id !== req.user.id)`, Notion-integration lookup,
token decryption with its empty-result check, interpolation, the Notion
page/database creation, and the usage-count increment whose result is
ignored (`incrementUsageCount` catches internally and never throws, cf.
part_000 lines 328-345).  The outcomes of the awaited calls are supplied
in an environment record; the handler returns its response and the trace
of external calls it performed, in order. -/

inductive ExportMode where
  | page
  | database
deriving DecidableEq

/-- The validated `ExportTemplateSchema` body. -/
structure ExportRequestData where
  mode : ExportMode
  targetId : String
  variablesMap : List (String × String)
deriving DecidableEq

/-- One external call of the export path. -/
inductive ExportEffect where
  | getTemplate
  | getNotionToken
  | decryptToken
  | notionCreate
  | incrementUsage
deriving DecidableEq

/-- The responses the export handler can produce (status, error shape). -/
inductive ExportResponse where
  | ok (notionResourceId : String) (mode : ExportMode)
  | templateNotFound
  | accessDenied
  | integrationMissing
  | decryptFailed
  | notionApiError (msg : String)
deriving DecidableEq

/-- Outcomes of the awaited calls of one export request. -/
structure ExportEnv where
  templateRes : Option Template
  integrationRes : Option UserIntegration
  decryptedToken : String
  notionRes : Except String String
  incrementSuccess : Bool

/-- The export handler body (templates.ts lines 454-605). -/
def exportTemplateHandler (userId : String) (req : ExportRequestData)
    (env : ExportEnv) : ExportResponse × List ExportEffect :=
  match env.templateRes with
  | none => (ExportResponse.templateNotFound, [ExportEffect.getTemplate])
  | some t =>
    if t.is_public = false ∧ t.user_id ≠ userId then
      (ExportResponse.accessDenied, [ExportEffect.getTemplate])
    else
      match env.integrationRes with
      | none =>
        (ExportResponse.integrationMissing,
          [ExportEffect.getTemplate, ExportEffect.getNotionToken])
      | some _integration =>
        if env.decryptedToken = "" then
          (ExportResponse.decryptFailed,
            [ExportEffect.getTemplate, ExportEffect.getNotionToken,
              ExportEffect.decryptToken])
        else
          let _interpolated := jsInterpolate t.prompt req.variablesMap
          match env.notionRes with
          | Except.error e =>
            (ExportResponse.notionApiError e,
              [ExportEffect.getTemplate, ExportEffect.getNotionToken,
                ExportEffect.decryptToken, ExportEffect.notionCreate])
          | Except.ok rid =>
            let _ignored := env.incrementSuccess
            (ExportResponse.ok rid req.mode,
              [ExportEffect.getTemplate, ExportEffect.getNotionToken,
                ExportEffect.decryptToken, ExportEffect.notionCreate,
                ExportEffect.incrementUsage])

/-- C6: exporting a non-public template owned by another user answers
`accessDenied` after only the template lookup: the trace contains no
Notion call, no credential load, no decryption and no usage increment. -/
theorem export_access_denied_no_external_calls :
    ∀ (userId : String) (req : ExportRequestData) (env : ExportEnv)
      (t : Template),
      env.templateRes = some t →
      t.is_public = false →
      t.user_id ≠ userId →
      exportTemplateHandler userId req env =
        (ExportResponse.accessDenied, [ExportEffect.getTemplate]) ∧
      ExportEffect.notionCreate ∉ (exportTemplateHandler userId req env).2 ∧
      ExportEffect.getNotionToken ∉ (exportTemplateHandler userId req env).2 ∧
      ExportEffect.decryptToken ∉ (exportTemplateHandler userId req env).2 ∧
      ExportEffect.incrementUsage ∉ (exportTemplateHandler userId req env).2 := by
  intro userId req env t ht hpub howner
  have hres : exportTemplateHandler userId req env =
      (ExportResponse.accessDenied, [ExportEffect.getTemplate]) := by
    unfold exportTemplateHandler
    rw [ht]
    simp only []
    rw [if_pos ⟨hpub, howner⟩]
  refine ⟨hres, ?_, ?_, ?_, ?_⟩ <;> rw [hres] <;> simp

/-- A concrete private template owned by `owner-b`. -/
def privateTemplate : Template :=
  { id := "t9", user_id := "owner-b", title := "Private", category := none
    tags := ["x"], prompt := "secret body", is_public := false
    usage_count := 3 }

/-- Witness for `export_access_denied_no_external_calls`: user
`intruder` exporting `privateTemplate`. -/
theorem export_access_denied_no_external_calls_witness :
    exportTemplateHandler "intruder"
        { mode := ExportMode.page, targetId := "tgt"
          variablesMap := [("k", "v")] }
        { templateRes := some privateTemplate
          integrationRes := none, decryptedToken := "tok"
          notionRes := Except.ok "page-1", incrementSuccess := true } =
      (ExportResponse.accessDenied, [ExportEffect.getTemplate]) :=
  (export_access_denied_no_external_calls "intruder"
    { mode := ExportMode.page, targetId := "tgt"
      variablesMap := [("k", "v")] }
    { templateRes := some privateTemplate
      integrationRes := none, decryptedToken := "tok"
      notionRes := Except.ok "page-1", incrementSuccess := true }
    privateTemplate rfl rfl (by decide)).1

/-- C8: the export response and trace never depend on the outcome of the
usage-count increment (whose result the handler discards and whose
repository implementation catches every error); and whenever the Notion
creation call was made and succeeded, the handler answers the success
response carrying the Notion resource id and the requested mode. -/
theorem export_success_survives_increment_failure :
    (∀ (userId : String) (req : ExportRequestData) (env : ExportEnv)
      (b : Bool),
      exportTemplateHandler userId req { env with incrementSuccess := b } =
        exportTemplateHandler userId req env) ∧
    (∀ (userId : String) (req : ExportRequestData) (env : ExportEnv)
      (rid : String),
      env.notionRes = Except.ok rid →
      ExportEffect.notionCreate ∈ (exportTemplateHandler userId req env).2 →
      (exportTemplateHandler userId req env).1 =
        ExportResponse.ok rid req.mode) := by
  constructor
  · intro userId req env b
    rfl
  · intro userId req env rid hok hmem
    unfold exportTemplateHandler at hmem ⊢
    split at hmem
    · simp at hmem
    · split at hmem
      · simp at hmem
      · split at hmem
        · simp at hmem
        · split at hmem
          · simp at hmem
          · split at hmem
            next e heq =>
              rw [heq] at hok
              cases hok
            next rid' heq =>
              rw [heq] at hok
              cases hok
              split
              · rename_i hcontra
                exact absurd hcontra (by assumption)
              · rfl

/-- A concrete export request body. -/
def sampleExportReq : ExportRequestData :=
  { mode := ExportMode.database, targetId := "db-1"
    variablesMap := [("name", "Ada")] }

/-- A concrete environment for a fully successful export. -/
def sampleExportEnv : ExportEnv :=
  { templateRes := some sampleTemplate
    integrationRes := some (freshRow "u" sampleInputA "i1" 0)
    decryptedToken := "decrypted-token"
    notionRes := Except.ok "page-1"
    incrementSuccess := true }

/-- Witness for `export_success_survives_increment_failure`: a concrete
successful export, with the increment outcome flipped to failure. -/
theorem export_success_survives_increment_failure_witness :
    exportTemplateHandler "u" sampleExportReq
        { sampleExportEnv with incrementSuccess := false } =
      exportTemplateHandler "u" sampleExportReq sampleExportEnv ∧
    (exportTemplateHandler "u" sampleExportReq sampleExportEnv).1 =
      ExportResponse.ok "page-1" sampleExportReq.mode :=
  ⟨export_success_survives_increment_failure.1 "u" sampleExportReq
      sampleExportEnv false,
   export_success_survives_increment_failure.2 "u" sampleExportReq
      sampleExportEnv "page-1" rfl (by decide)⟩

/-! ## OAuth callback handler  (src/routes/notion.ts lines 99-201)

Every statement of the handler body besides the awaited calls is a
`res.redirect(...)`; the whole body sits inside a `try` whose `catch`
also redirects.  Awaited-call outcomes are supplied as an environment:
the token exchange (which may reject, answer non-2xx, or succeed) and
the credential upsert (which returns an error field rather than
throwing, cf. part_001 lines 100-106).  Any runtime exception on the
path is represented by the `throws` exchange outcome and lands in the
`catch`.  Query-parameter values are kept unencoded; the code applies
`encodeURIComponent` to the message and workspace values only. -/

/-- Outcome of the `fetch` token exchange and its JSON decoding. -/
inductive TokenExchangeOutcome where
  | throws
  | httpError (status : Nat) (body : String)
  | ok (accessToken : String) (refreshToken : Option String)
      (workspaceId : Option String) (workspaceName : Option String)

/-- Outcome of `IntegrationsRepository.upsertNotionToken` as observed by
the handler: an error field or a stored row. -/
inductive StorageOutcome where
  | ok
  | err (msg : String)

/-- The inputs and awaited-call outcomes of one callback request. -/
structure CallbackEnv where
  frontendUrl : String
  state : Option String
  code : Option String
  oauthError : Option String
  exchange : TokenExchangeOutcome
  storage : StorageOutcome

/-- An express response: the callback only ever uses `res.redirect`, but
the JSON shape other handlers use is included so that "never a
non-redirect response" is a statement, not a typing accident. -/
inductive HttpResponse where
  | redirect (url : String) (query : List (String × String))
  | json (status : Nat) (ok : Bool) (error : Option String)
deriving DecidableEq

/-- JavaScript truthiness of an optional string. -/
def truthy (o : Option String) : Bool :=
  match o with
  | none => false
  | some s => s ≠ ""

/-- JavaScript `x || d` for an optional string default. -/
def orDefault (o : Option String) (d : String) : String :=
  match o with
  | none => d
  | some s => if s = "" then d else s

/-- The callback handler body (notion.ts lines 99-201). -/
def notionOAuthCallback (env : CallbackEnv) : HttpResponse :=
  let base := env.frontendUrl ++ "/settings"
  match parseStateUserId env.state with
  | none => HttpResponse.redirect base [("error", "invalid_state")]
  | some _userId =>
    if truthy env.oauthError then
      HttpResponse.redirect base
        [("error", "oauth_failed"), ("message", orDefault env.oauthError "")]
    else if truthy env.code = false then
      HttpResponse.redirect base [("error", "missing_code")]
    else
      match env.exchange with
      | TokenExchangeOutcome.throws =>
        HttpResponse.redirect base [("error", "unexpected_error")]
      | TokenExchangeOutcome.httpError _ _ =>
        HttpResponse.redirect base [("error", "token_exchange_failed")]
      | TokenExchangeOutcome.ok _at _rt _wid wname =>
        match env.storage with
        | StorageOutcome.err _ =>
          HttpResponse.redirect base [("error", "storage_failed")]
        | StorageOutcome.ok =>
          HttpResponse.redirect base
            [("connected", "notion"), ("workspace", orDefault wname "Unknown")]

/-- The six failure reason codes of the callback redirect contract. -/
def callbackErrorCodes : List String :=
  ["invalid_state", "oauth_failed", "missing_code", "token_exchange_failed",
    "storage_failed", "unexpected_error"]

/-- The contract of one callback response: it is a redirect, and either
its `error` parameter is one of the six reason codes, or it has no
`error` parameter, `connected=notion`, and a `workspace` parameter. -/
def callbackOutcomeOk (r : HttpResponse) : Bool :=
  match r with
  | HttpResponse.json _ _ _ => false
  | HttpResponse.redirect _ q =>
    match q.lookup "error" with
    | some e => callbackErrorCodes.contains e
    | none =>
      (q.lookup "connected" == some "notion") && (q.lookup "workspace").isSome

/-- C5: every execution of the callback — over all states, codes,
provider errors, exchange outcomes and storage outcomes — produces a
redirect that satisfies the contract: on failure the `error` parameter
is one of the six reason codes, on success the query carries
`connected=notion` and a `workspace` value; no input produces a
non-redirect response. -/
theorem callback_always_redirects_with_reason :
    ∀ env : CallbackEnv, callbackOutcomeOk (notionOAuthCallback env) = true := by
  intro env
  unfold notionOAuthCallback
  split
  · rfl
  · split
    · rfl
    · split
      · rfl
      · split
        · rfl
        · rfl
        · split
          · rfl
          · rfl
